import Mathlib

/-
Verification of the rule-combinator core in `src/parse/rule.rs` of the
`abnf` crate.

The Rust type `Poll<T, E>` is `Result<Async<T>, E>` where `Async<T>` is
`Ready(T) | NotReady`.  We embed it as `Except E (Async T)`.

A parse closure `FnOnce(&mut BytesMut) -> Poll<T, E>` becomes a pure
function `B → Poll T E × B`: the buffer is the only mutable state a
closure touches that the combinators can observe, so explicit state
passing captures the Rust semantics.  The combinators only clone and
assign the buffer, so they are polymorphic in the buffer type `B`.

A combine closure `FnMut(Result<R, E>) -> Poll<S, F>` may mutate captured
state (an accumulator, a counter), so it becomes
`Except E R → σ → Poll S F × σ` with its state `σ` threaded explicitly.
The `group` rewind in the Rust code restores only the buffer, never the
combine closure's captured state, and the embedding mirrors that.

The Rust `loop` in `repeat`/`at_least_once` may diverge for a combine
closure that keeps answering NotReady, so the loops take a fuel
argument and return `none` when it runs out.
-/

inductive Async (T : Type) where
  | Ready : T → Async T
  | NotReady : Async T
deriving DecidableEq

/-- `Poll<T, E> = Result<Async<T>, E>` from the `futures` crate. -/
abbrev Poll (T E : Type) := Except E (Async T)

namespace Rule

/-- The buffer-restoring `match` at the end of `group`: rewind the buffer
to `orig_buf` when the result is `Ok(Async::NotReady)` or `Err(_)`,
leave it alone otherwise. -/
def rewindNonReady {B T E : Type} (orig_buf : B) (res : Poll T E × B) :
    Poll T E × B :=
  match res.1 with
  | Except.ok Async.NotReady => (res.1, orig_buf)
  | Except.error _ => (res.1, orig_buf)
  | Except.ok (Async.Ready _) => res

/-- `group` from `rule.rs`: snapshot the buffer, run the closure, rewind
on `NotReady` or `Err`, and return the closure's result unchanged. -/
def group {B T E : Type} (buf : B) (parse : B → Poll T E × B) :
    Poll T E × B :=
  let orig_buf := buf
  rewindNonReady orig_buf (parse buf)

/-- `opt_group` from `rule.rs`: like `group` but the buffer is kept only
on `Ok(Async::Ready(Some(_)))`; every other outcome rewinds. -/
def opt_group {B T E : Type} (buf : B) (parse : B → Poll (Option T) E × B) :
    Poll (Option T) E × B :=
  let orig_buf := buf
  let res := parse buf
  match res.1 with
  | Except.ok (Async.Ready (some _)) => res
  | _ => (res.1, orig_buf)

/-- Modelled from the spec: the crate's try_result helper used by the
repetition drivers is defined outside the provided source file.  Per the
spec, a Suspended element outcome makes the whole driver return Suspended
early (the `none` case here, turned into `Ok(Async::NotReady)` by the
callers); otherwise the element outcome is converted to a plain
`Result<R, E>` handed to the combine closure. -/
def try_result {R E : Type} (p : Poll R E) : Option (Except E R) :=
  match p with
  | Except.ok (Async.Ready r) => some (Except.ok r)
  | Except.error e => some (Except.error e)
  | Except.ok Async.NotReady => none

/-- The `loop` body shared by `repeat` and `at_least_once`: parse an
element; on Suspended return `Ok(Async::NotReady)`; otherwise hand the
element result to `combine`, whose `Ready`/`Err` ends the loop and whose
`NotReady` requests another iteration.  `fuel` bounds the number of
iterations; `none` models running out (a diverging loop). -/
def repeat_loop {B R E σ S F : Type} (parse : B → Poll R E × B)
    (combine : Except E R → σ → Poll S F × σ) :
    Nat → B → σ → Option (Poll S F × B × σ)
  | 0, _, _ => none
  | fuel + 1, buf, s =>
    let pr := parse buf
    match try_result pr.1 with
    | none => some (Except.ok Async.NotReady, pr.2, s)
    | some item =>
      let cr := combine item s
      match cr.1 with
      | Except.ok (Async.Ready res) =>
          some (Except.ok (Async.Ready res), pr.2, cr.2)
      | Except.error err => some (Except.error err, pr.2, cr.2)
      | Except.ok Async.NotReady => repeat_loop parse combine fuel pr.2 cr.2

/-- `repeat` from `rule.rs`: the loop above enclosed in `group`'s rewind
(the rewind touches the buffer only, not the combine state). -/
def «repeat» {B R E σ S F : Type} (buf : B) (parse : B → Poll R E × B)
    (combine : Except E R → σ → Poll S F × σ) (s : σ) (fuel : Nat) :
    Option (Poll S F × B × σ) :=
  match repeat_loop parse combine fuel buf s with
  | none => none
  | some (res, b, s2) =>
    let g := rewindNonReady buf (res, b)
    some (g.1, g.2, s2)

/-- `at_least_once` from `rule.rs`: the first element is special-cased —
a first-element parse failure is adapted by `error` and returned without
calling `combine`; otherwise the driver behaves like `repeat`'s loop.
The whole operation sits inside `group`'s rewind. -/
def at_least_once {B R E σ S F : Type} (buf : B) (parse : B → Poll R E × B)
    (combine : Except E R → σ → Poll S F × σ) (error : E → F) (s : σ)
    (fuel : Nat) : Option (Poll S F × B × σ) :=
  let inner :=
    let pr := parse buf
    match try_result pr.1 with
    | none => some (Except.ok Async.NotReady, pr.2, s)
    | some (Except.error err) => some (Except.error (error err), pr.2, s)
    | some (Except.ok item) =>
      let cr := combine (Except.ok item) s
      match cr.1 with
      | Except.ok (Async.Ready res) =>
          some (Except.ok (Async.Ready res), pr.2, cr.2)
      | Except.error err => some (Except.error err, pr.2, cr.2)
      | Except.ok Async.NotReady => repeat_loop parse combine fuel pr.2 cr.2
  match inner with
  | none => none
  | some (res, b, s2) =>
    let g := rewindNonReady buf (res, b)
    some (g.1, g.2, s2)

/-- `optional` from `rule.rs`: run the closure once, with no rewind;
`Ready(v)` becomes `Ready(Some(v))`, `NotReady` passes through, and any
error becomes `Ready(None)`. -/
def optional {B R E F : Type} (buf : B) (parse : B → Poll R E × B) :
    Poll (Option R) F × B :=
  let pr := parse buf
  match pr.1 with
  | Except.ok Async.NotReady => (Except.ok Async.NotReady, pr.2)
  | Except.ok (Async.Ready v) => (Except.ok (Async.Ready (some v)), pr.2)
  | Except.error _ => (Except.ok (Async.Ready none), pr.2)

/-- The canonical accumulating combine closure from the module's `*Rule`
example: push each parsed element onto the accumulator and ask for
another; on an element failure, end the repetition returning the
accumulated list. -/
def accumulate {R E F : Type} (item : Except E R) (acc : List R) :
    Poll (List R) F × List R :=
  match item with
  | Except.ok r => (Except.ok Async.NotReady, acc ++ [r])
  | Except.error _ => (Except.ok (Async.Ready acc), acc)

/-- A run of the repetition loop that ends in the element parser
suspending: `SuspendsAt parse combine buf s n sf` says that starting from
buffer `buf` and combine state `s`, `combine` requests continuation `n`
times and the `n+1`-st invocation of `parse` returns `NotReady`, with `sf`
the combine state at that moment. -/
inductive SuspendsAt {B R E σ S F : Type} (parse : B → Poll R E × B)
    (combine : Except E R → σ → Poll S F × σ) : B → σ → Nat → σ → Prop where
  | here {buf : B} {s : σ} :
      (parse buf).1 = Except.ok Async.NotReady →
      SuspendsAt parse combine buf s 0 s
  | there {buf : B} {s s2 sf : σ} {item : Except E R} {n : Nat} :
      try_result (parse buf).1 = some item →
      combine item s = (Except.ok Async.NotReady, s2) →
      SuspendsAt parse combine (parse buf).2 s2 n sf →
      SuspendsAt parse combine buf s (n + 1) sf

/-- `Runs parse buf n rs bN` says the element parser succeeds `n` times in
a row from buffer `buf`, yielding the elements `rs` in order and leaving
the buffer at `bN`. -/
inductive Runs {B R E : Type} (parse : B → Poll R E × B) :
    B → Nat → List R → B → Prop where
  | nil {buf : B} : Runs parse buf 0 [] buf
  | cons {buf bN : B} {r : R} {n : Nat} {rs : List R} :
      (parse buf).1 = Except.ok (Async.Ready r) →
      Runs parse (parse buf).2 n rs bN →
      Runs parse buf (n + 1) (r :: rs) bN

end Rule

/-- A concrete element parser used by the witnesses: parse one ASCII digit
from the front of a byte list, suspending on an empty buffer and failing
(without consuming) on a non-digit. -/
def parseDigit (buf : List Nat) : Poll Nat Unit × List Nat :=
  match buf with
  | [] => (Except.ok Async.NotReady, [])
  | b :: rest =>
    if 48 ≤ b ∧ b ≤ 57 then (Except.ok (Async.Ready (b - 48)), rest)
    else (Except.error (), b :: rest)

/-- Claim C1: for every parse closure `P` and starting buffer `S`, `group`
returns `P`'s outcome unchanged; on `Complete` the buffer is exactly as
`P` left it, and on `Suspended` or `Failed` it is restored to `S`. -/
theorem group_contract {B T E : Type} (buf : B) (parse : B → Poll T E × B) :
    (Rule.group buf parse).1 = (parse buf).1 ∧
    (Rule.group buf parse).2 =
      (match (parse buf).1 with
       | Except.ok (Async.Ready _) => (parse buf).2
       | _ => buf) := by
  unfold Rule.group Rule.rewindNonReady
  rcases h : (parse buf).1 with e | a
  · simp [h]
  · cases a <;> simp [h]

/-- Claim C2: `opt_group` returns the closure's outcome unchanged; the
buffer is kept as the closure left it exactly when the outcome is
`Complete(Some(_))`, and restored to the entry state in every other case
(`Complete(None)`, `Suspended`, `Failed`). -/
theorem opt_group_contract {B T E : Type} (buf : B)
    (parse : B → Poll (Option T) E × B) :
    (Rule.opt_group buf parse).1 = (parse buf).1 ∧
    (Rule.opt_group buf parse).2 =
      (match (parse buf).1 with
       | Except.ok (Async.Ready (some _)) => (parse buf).2
       | _ => buf) := by
  unfold Rule.opt_group
  rcases h : (parse buf).1 with e | a
  · simp [h]
  · rcases a with v | _
    · rcases v with _ | v <;> simp [h]
    · simp [h]

/-- Claim C9: `optional` never returns `Failed`: whatever outcome or
error the wrapped closure produces, the result is `Ok` of either
`Ready(Some(_))`, `Ready(None)`, or `NotReady`, and no value of the
output error type is ever constructed. -/
theorem optional_never_fails {B R E F : Type} (buf : B)
    (parse : B → Poll R E × B) :
    (Rule.optional (F := F) buf parse).1 =
      Except.ok
        (match (parse buf).1 with
         | Except.ok (Async.Ready v) => Async.Ready (some v)
         | Except.ok Async.NotReady => Async.NotReady
         | Except.error _ => Async.Ready none) := by
  unfold Rule.optional
  rcases h : (parse buf).1 with e | a
  · simp [h]
  · cases a <;> simp [h]

/-- Claim C7: for a parse closure obeying the no-consumption-on-non-success
convention at this buffer, `optional` maps `Complete(v)` to
`Complete(Some(v))` with the buffer exactly as the closure left it,
`Failed` to `Complete(None)` with the buffer unchanged, and `Suspended`
to `Suspended` with the buffer unchanged — performing no rewind itself. -/
theorem optional_contract {B R E F : Type} (buf : B)
    (parse : B → Poll R E × B)
    (hconv : ((parse buf).1 = Except.ok Async.NotReady → (parse buf).2 = buf)
      ∧ ∀ e, (parse buf).1 = Except.error e → (parse buf).2 = buf) :
    Rule.optional (F := F) buf parse =
      (match (parse buf).1 with
       | Except.ok (Async.Ready v) =>
           (Except.ok (Async.Ready (some v)), (parse buf).2)
       | Except.ok Async.NotReady => (Except.ok Async.NotReady, buf)
       | Except.error _ => (Except.ok (Async.Ready none), buf)) := by
  unfold Rule.optional
  rcases h : (parse buf).1 with e | a
  · simp [h, hconv.2 e h]
  · cases a
    · simp [h]
    · simp [h, hconv.1 h]

/-- Claim C4: when the first invocation of the element parser inside
`at_least_once` fails with `e`, the call returns `Failed(error e)`, the
combine closure is never invoked (the combine state comes back untouched
and the result is the same for every `combine`), and the buffer is
restored to its entry state. -/
theorem at_least_once_first_failure {B R E σ S F : Type} (buf : B)
    (parse : B → Poll R E × B) (combine : Except E R → σ → Poll S F × σ)
    (error : E → F) (s : σ) (fuel : Nat) (e : E)
    (h : (parse buf).1 = Except.error e) :
    Rule.at_least_once buf parse combine error s fuel =
      some (Except.error (error e), buf, s) := by
  unfold Rule.at_least_once Rule.try_result Rule.rewindNonReady
  simp [h]

/-- Claim C10: when the first invocation of the element parser inside
`at_least_once` suspends, the call returns `Suspended`, neither the
combine closure nor the error adapter is invoked (the combine state comes
back untouched and the result is the same for every `combine` and every
adapter), and the buffer is restored to its entry state. -/
theorem at_least_once_first_suspension {B R E σ S F : Type} (buf : B)
    (parse : B → Poll R E × B) (combine : Except E R → σ → Poll S F × σ)
    (error : E → F) (s : σ) (fuel : Nat)
    (h : (parse buf).1 = Except.ok Async.NotReady) :
    Rule.at_least_once buf parse combine error s fuel =
      some (Except.ok Async.NotReady, buf, s) := by
  unfold Rule.at_least_once Rule.try_result Rule.rewindNonReady
  simp [h]

/-- Claim C5: if the element parser fails at once (restoring the buffer,
as the closure contract requires of it) and the combine closure maps that
first failure to `Complete(d)`, then `repeat` returns `Complete(d)` with
the buffer unchanged — zero repetitions is a valid, side-effect-free
outcome. -/
theorem repeat_zero_reps {B R E σ S F : Type} (buf : B)
    (parse : B → Poll R E × B) (combine : Except E R → σ → Poll S F × σ)
    (s s2 : σ) (d : S) (e : E) (fuel : Nat)
    (hfail : (parse buf).1 = Except.error e)
    (hconv : (parse buf).2 = buf)
    (hcomb : combine (Except.error e) s = (Except.ok (Async.Ready d), s2))
    (hfuel : 0 < fuel) :
    Rule.«repeat» buf parse combine s fuel =
      some (Except.ok (Async.Ready d), buf, s2) := by
  obtain ⟨f, rfl⟩ : ∃ f, fuel = f + 1 := ⟨fuel - 1, by omega⟩
  unfold Rule.«repeat» Rule.repeat_loop Rule.try_result Rule.rewindNonReady
  simp [hfail, hconv, hcomb]

/-- Claim C8: whenever the first invocation of the element parser does not
fail, `at_least_once` computes exactly what `repeat` computes with the
same element parser and combine closure (one extra unit of loop fuel
accounts for the special-cased first iteration): same outcome, same final
buffer, same combine state, and the error adapter is never consulted. -/
theorem at_least_once_agrees_with_repeat {B R E σ S F : Type} (buf : B)
    (parse : B → Poll R E × B) (combine : Except E R → σ → Poll S F × σ)
    (error : E → F) (s : σ) (fuel : Nat) (a : Async R)
    (h : (parse buf).1 = Except.ok a) :
    Rule.at_least_once buf parse combine error s fuel =
      Rule.«repeat» buf parse combine s (fuel + 1) := by
  cases a with
  | NotReady =>
    simp [Rule.at_least_once, Rule.«repeat», Rule.repeat_loop,
      Rule.try_result, h]
  | Ready r =>
    rcases hc : combine (Except.ok r) s with ⟨cres, cs⟩
    rcases cres with ce | ca
    · simp [Rule.at_least_once, Rule.«repeat», Rule.repeat_loop,
        Rule.try_result, h, hc]
    · cases ca
      · simp [Rule.at_least_once, Rule.«repeat», Rule.repeat_loop,
          Rule.try_result, h, hc]
      · simp only [Rule.at_least_once, Rule.«repeat», Rule.repeat_loop,
          Rule.try_result, h, hc]
        rfl

theorem repeat_loop_suspends {B R E σ S F : Type} {parse : B → Poll R E × B}
    {combine : Except E R → σ → Poll S F × σ} {buf : B} {s sf : σ} {n : Nat}
    (h : Rule.SuspendsAt parse combine buf s n sf) :
    ∀ fuel, n < fuel → ∃ b, Rule.repeat_loop parse combine fuel buf s =
      some (Except.ok Async.NotReady, b, sf) := by
  induction h with
  | @here b1 s1 hp =>
    intro fuel hf
    obtain ⟨f, rfl⟩ : ∃ f, fuel = f + 1 := ⟨fuel - 1, by omega⟩
    exact ⟨(parse b1).2, by simp [Rule.repeat_loop, Rule.try_result, hp]⟩
  | @there b1 s1 s2 sf1 item n1 hi hc _ ih =>
    intro fuel hf
    obtain ⟨f, rfl⟩ : ∃ f, fuel = f + 1 := ⟨fuel - 1, by omega⟩
    obtain ⟨b, hb⟩ := ih f (by omega)
    exact ⟨b, by simp [Rule.repeat_loop, hi, hc, hb]⟩

/-- Claim C3: if some invocation of the element parser during a `repeat`
run suspends — after any number of elements already parsed and accepted
by the combine closure — then the whole call returns `Suspended` with the
buffer restored to its state at the start of the call: no partial
repetition progress survives a suspension. -/
theorem repeat_suspension_rewinds {B R E σ S F : Type}
    {parse : B → Poll R E × B} {combine : Except E R → σ → Poll S F × σ}
    {buf : B} {s sf : σ} {n fuel : Nat}
    (h : Rule.SuspendsAt parse combine buf s n sf) (hfuel : n < fuel) :
    Rule.«repeat» buf parse combine s fuel =
      some (Except.ok Async.NotReady, buf, sf) := by
  obtain ⟨b, hb⟩ := repeat_loop_suspends h fuel hfuel
  simp [Rule.«repeat», hb, Rule.rewindNonReady]

/-- Witness for C3: the digit parser over the bytes of `"12"` parses two
digits, the accumulating combine accepts both, and the third attempt
suspends on the empty buffer; `repeat` returns `Suspended` with the
buffer restored to the full input. -/
theorem repeat_suspension_rewinds_witness :
    Rule.«repeat» [49, 50] parseDigit (@Rule.accumulate Nat Unit Unit)
      [] 3 =
      some (Except.ok Async.NotReady, [49, 50], [1, 2]) :=
  repeat_suspension_rewinds
    (Rule.SuspendsAt.there rfl rfl
      (Rule.SuspendsAt.there rfl rfl (Rule.SuspendsAt.here rfl)))
    (by decide)

theorem repeat_loop_accumulates {B R E S : Type} {parse : B → Poll R E × B}
    {buf bN : B} {n : Nat} {rs : List R}
    (h : Rule.Runs parse buf n rs bN) :
    ∀ (e : E), (parse bN).1 = Except.error e →
    ∀ fuel acc, n < fuel →
      Rule.repeat_loop parse (@Rule.accumulate R E S) fuel buf acc =
        some (Except.ok (Async.Ready (acc ++ rs)), (parse bN).2, acc ++ rs) := by
  induction h with
  | nil =>
    intro e hfail fuel acc hf
    obtain ⟨f, rfl⟩ : ∃ f, fuel = f + 1 := ⟨fuel - 1, by omega⟩
    simp [Rule.repeat_loop, Rule.try_result, Rule.accumulate, hfail]
  | @cons b1 bN1 r n1 rs1 hp _ ih =>
    intro e hfail fuel acc hf
    obtain ⟨f, rfl⟩ : ∃ f, fuel = f + 1 := ⟨fuel - 1, by omega⟩
    have hr := ih e hfail f (acc ++ [r]) (by omega)
    simp [Rule.repeat_loop, Rule.try_result, Rule.accumulate, hp, hr]

/-- Claim C6: if the element parser succeeds exactly `n` times yielding
the elements `rs` and then fails (restoring the buffer on that failed
attempt, as the closure contract requires), then `repeat` with the
accumulating combine closure returns `Complete(rs)` — the `n` elements in
order — with the buffer advanced exactly past those `n` elements. -/
theorem repeat_collects_elements {B R E S : Type} {parse : B → Poll R E × B}
    {buf bN : B} {n : Nat} {rs : List R} {e : E} {fuel : Nat}
    (h : Rule.Runs parse buf n rs bN)
    (hfail : (parse bN).1 = Except.error e)
    (hconv : (parse bN).2 = bN)
    (hfuel : n < fuel) :
    Rule.«repeat» buf parse (@Rule.accumulate R E S) [] fuel =
      some (Except.ok (Async.Ready rs), bN, rs) := by
  have hl := repeat_loop_accumulates (S := S) h e hfail fuel [] hfuel
  rw [hconv] at hl
  simp only [List.nil_append] at hl
  simp [Rule.«repeat», hl, Rule.rewindNonReady]

/-- Witness for C6: the digit parser over the bytes of `"12a"` succeeds
twice and then fails on `'a'`; `repeat` with the accumulating combine
returns `Complete([1, 2])` with the buffer left just before `'a'`. -/
theorem repeat_collects_elements_witness :
    Rule.«repeat» [49, 50, 97] parseDigit (@Rule.accumulate Nat Unit Unit)
      [] 3 =
      some (Except.ok (Async.Ready [1, 2]), [97], [1, 2]) :=
  repeat_collects_elements
    (Rule.Runs.cons rfl (Rule.Runs.cons rfl Rule.Runs.nil)) rfl rfl
    (by decide)

/-- Witness for C4: `at_least_once` with the digit parser on the bytes of
`"a"` fails immediately with the adapted error and an unchanged buffer
and combine state. -/
theorem at_least_once_first_failure_witness :
    Rule.at_least_once [97] parseDigit (@Rule.accumulate Nat Unit Nat)
      (fun _ => 7) [] 5 =
      some (Except.error 7, [97], []) :=
  at_least_once_first_failure [97] parseDigit
    (@Rule.accumulate Nat Unit Nat) (fun _ => 7) [] 5 () rfl

/-- Witness for C10: `at_least_once` with the digit parser on the empty
buffer suspends with an unchanged buffer and combine state. -/
theorem at_least_once_first_suspension_witness :
    Rule.at_least_once [] parseDigit (@Rule.accumulate Nat Unit Nat)
      (fun _ => 7) [] 5 =
      some (Except.ok Async.NotReady, [], []) :=
  at_least_once_first_suspension [] parseDigit
    (@Rule.accumulate Nat Unit Nat) (fun _ => 7) [] 5 rfl

/-- Witness for C5: `repeat` with the digit parser on the bytes of `"a"`
and the accumulating combine returns `Complete([])` with the buffer
unchanged. -/
theorem repeat_zero_reps_witness :
    Rule.«repeat» [97] parseDigit (@Rule.accumulate Nat Unit Unit) [] 1 =
      some (Except.ok (Async.Ready []), [97], []) :=
  repeat_zero_reps [97] parseDigit (@Rule.accumulate Nat Unit Unit)
    [] [] [] () 1 rfl rfl rfl (by decide)

/-- Witness for C8: on the single digit `"1"`, `at_least_once` and
`repeat` (with one extra unit of loop fuel) compute the same result. -/
theorem at_least_once_agrees_with_repeat_witness :
    Rule.at_least_once [49] parseDigit (@Rule.accumulate Nat Unit Nat)
      (fun _ => 7) [] 2 =
      Rule.«repeat» [49] parseDigit (@Rule.accumulate Nat Unit Nat) [] 3 :=
  at_least_once_agrees_with_repeat [49] parseDigit
    (@Rule.accumulate Nat Unit Nat) (fun _ => 7) [] 2 (Async.Ready 1) rfl

/-- Witness for C7: `optional` with the digit parser on the bytes of
`"5x"` yields `Complete(Some(5))` with the buffer advanced past the
digit. -/
theorem optional_contract_witness :
    Rule.optional (F := Nat) [53, 120] parseDigit =
      (Except.ok (Async.Ready (some 5)), [120]) := by
  have h := optional_contract (F := Nat) [53, 120] parseDigit
    (by constructor
        · intro h; simp [parseDigit] at h
        · intro e h; simp [parseDigit] at h)
  simpa [parseDigit] using h
